/-
Verification development for the Retina-OCT batch-analysis frontend.

Shallow embedding of the request-orchestration and response-verification
subsystem: the backoff retrier and abort-checking request wrapper
(src/unnamed/part_000, `retryWithBackoff` / `makeRequest`), the error
normaliser (`parseApiError`), the remote-analysis client pipeline
(`analyzeImage`), the mapping verifier (src/utils/fileHelpers.ts,
`verifyMapping`) and the batch orchestrator / refinement handlers
(src/App.tsx, `runAnalysisLoop` / `handleRefineAnalysis`).

Asynchronous effects are made explicit: a fallible remote call is an
`Except JsError` value, an operation retried over time is a function from
the attempt index to its outcome, the abort signal is a boolean (indexed
by attempt where its evolution matters), and the retrier returns an
instrumented trace recording the delays waited and the number of times
the wrapped operation ran.  JavaScript string truthiness (the empty
string is falsy) is modelled explicitly by `strTruthy`.
-/
import Mathlib

namespace RetinaOCT

/-- A JavaScript `Error` value as far as the code inspects it: its `name`
and its `message`. -/
structure JsError where
  name : String
  message : String
deriving DecidableEq, Repr

/-- JavaScript truthiness of an optional string: `undefined` and the empty
string are falsy, every other string is truthy. -/
def strTruthy : Option String → Bool
  | none => false
  | some s => s != ""

/-- Does `hay` start with `needle`? (on character lists). -/
def charStartsWith : List Char → List Char → Bool
  | [], _ => true
  | _ :: _, [] => false
  | c :: cs, d :: ds => c == d && charStartsWith cs ds

/-- Is `needle` a contiguous sublist of `hay`? -/
def charInfixOf (needle : List Char) : List Char → Bool
  | [] => needle.isEmpty
  | d :: ds => charStartsWith needle (d :: ds) || charInfixOf needle ds

/-- `hay.includes(needle)` on JavaScript strings: substring containment. -/
def containsSub (hay needle : String) : Bool :=
  charInfixOf needle.toList hay.toList

/-- `s.toLowerCase()` on the ASCII strings the code inspects (JavaScript
lower-cases full Unicode; every message and marker compared here is
ASCII). -/
def strToLower (s : String) : String :=
  String.mk (s.toList.map Char.toLower)

/-- `s.trim()` on JavaScript strings: strip leading and trailing
whitespace. -/
def strTrim (s : String) : String :=
  String.mk (((s.toList.dropWhile Char.isWhitespace).reverse.dropWhile
    Char.isWhitespace).reverse)

/-- Mirror of `parseApiError` (src/unnamed/part_000 lines 15-36) on the
`Error` branch: normalise a raised error to a readable message by
case-insensitive keyword inspection. -/
def parseApiError (e : JsError) : String :=
  let message := strToLower e.message
  if containsSub message "api key not valid" then
    "Invalid API Key. Please ensure your API key is correctly configured in your environment variables."
  else if containsSub message "quota" || containsSub message "rate limit" then
    "API Quota Exceeded. Please wait a moment before trying again."
  else if containsSub message "blocked" || containsSub message "safety" then
    "Content Safety Error. The request was blocked due to safety settings."
  else if containsSub message "server error" || containsSub message "500" then
    "AI Service Unavailable. Please try again later."
  else if containsSub message "abort" || e.name == "AbortError" then
    "Request cancelled by user."
  else e.message

/-- The retryable-error classification of `retryWithBackoff`
(src/unnamed/part_000 lines 54-55): case-insensitive substring match of
the error message against the transient-failure markers. -/
def isRetryable (e : JsError) : Bool :=
  let msg := strToLower e.message
  containsSub msg "quota" || containsSub msg "rate limit" ||
    containsSub msg "server error" || containsSub msg "unavailable"

/-- Instrumented outcome of a retry chain: the final settled result, the
backoff delays waited (in order), and how many times the wrapped
operation was executed. -/
structure RetryTrace (α : Type) where
  result : Except JsError α
  delays : List Nat
  execs : Nat
deriving Repr

/-- Mirror of `retryWithBackoff` (src/unnamed/part_000 lines 47-61).
`fn j` is the outcome of the j-th execution of the wrapped zero-argument
operation (the index makes the passage of time explicit); `retries` is
the remaining retry budget and `delay` the next backoff delay.  On
failure the error propagates immediately when the budget is exhausted or
the error is named `AbortError`; otherwise a retryable-message failure
waits `delay` and retries with budget minus one and the delay doubled,
and any other failure propagates. -/
def retryWithBackoff (fn : Nat → Except JsError α) : Nat → Nat → Nat → RetryTrace α
  | retries, delay, k =>
    match fn k with
    | .ok v => ⟨.ok v, [], 1⟩
    | .error e =>
      match retries with
      | 0 => ⟨.error e, [], 1⟩
      | r + 1 =>
        if e.name == "AbortError" then ⟨.error e, [], 1⟩
        else if isRetryable e then
          let rest := retryWithBackoff fn r (delay * 2) (k + 1)
          ⟨rest.result, delay :: rest.delays, 1 + rest.execs⟩
        else ⟨.error e, [], 1⟩

/-- The cancellation error thrown by the abort checks of the remote
client: `new Error("Request cancelled")`. -/
def requestCancelled : JsError := ⟨"Error", "Request cancelled"⟩

/-- Mirror of the `makeRequest` wrapper (src/unnamed/part_000 lines
85-88): recheck the cancellation signal just before dispatch; when it has
fired, fail with the cancellation error without invoking the remote call.
`aborted` is the state of the signal at this dispatch; `call` the outcome
the remote capability would produce.  The boolean of the pair records
whether the remote capability was actually invoked. -/
def makeRequest (aborted : Bool) (call : Except JsError α) : Except JsError α × Bool :=
  if aborted then (.error requestCancelled, false) else (call, true)

/-- The integer value of a digit run (most significant first). -/
def digitsToNat (ds : List Char) : Nat :=
  ds.foldl (fun acc c => acc * 10 + (c.toNat - 48)) 0

/-- Split a character list into its leading digit run and the rest. -/
def spanDigits (cs : List Char) : List Char × List Char :=
  (cs.takeWhile Char.isDigit, cs.dropWhile Char.isDigit)

/-- An exact decimal value `num × 10 ^ exp`: the result of parsing a
finite decimal numeral.  Exact arithmetic stands in for binary floating
point, which is faithful on the short percentage strings the code feeds
the parser. -/
structure DecValue where
  num : Int
  exp : Int
deriving DecidableEq, Repr

/-- The rational number a parsed decimal value denotes. -/
def DecValue.toRat (v : DecValue) : ℚ :=
  (v.num : ℚ) * (10 : ℚ) ^ v.exp

/-- Decidable strict comparison of a decimal value against an integer
bound, by cross-multiplying with the positive power of ten. -/
def DecValue.ltInt (v : DecValue) (b : Int) : Bool :=
  if 0 ≤ v.exp then v.num * 10 ^ v.exp.toNat < b
  else v.num < b * 10 ^ (-v.exp).toNat

/-- Parse the leading unsigned decimal mantissa (digits, optionally a dot
and more digits): its digit value, the number of fraction digits, and
the remaining characters; `none` when no digit is consumed. -/
def parseMantissa (cs : List Char) : Option (Nat × Nat × List Char) :=
  let (intDs, rest) := spanDigits cs
  match rest with
  | '.' :: rest2 =>
    let (fracDs, rest3) := spanDigits rest2
    if intDs.isEmpty && fracDs.isEmpty then none
    else some (digitsToNat (intDs ++ fracDs), fracDs.length, rest3)
  | _ => if intDs.isEmpty then none else some (digitsToNat intDs, 0, rest)

/-- Parse an optional exponent part `e`/`E` followed by an optionally
signed digit run; `none` when the part is absent or malformed (in which
case it is not consumed). -/
def parseExponentPart (cs : List Char) : Option Int :=
  match cs with
  | c :: rest =>
    if c == 'e' || c == 'E' then
      match rest with
      | '+' :: r2 =>
        let ds := (spanDigits r2).1
        if ds.isEmpty then none else some (digitsToNat ds : Int)
      | '-' :: r2 =>
        let ds := (spanDigits r2).1
        if ds.isEmpty then none else some (-(digitsToNat ds : Int))
      | r2 =>
        let ds := (spanDigits r2).1
        if ds.isEmpty then none else some (digitsToNat ds : Int)
    else none
  | [] => none

/-- Model of the JavaScript `parseFloat` builtin on finite decimal
numerals: skip leading whitespace, read an optional sign, a decimal
mantissa and an optional exponent, ignore any trailing characters, and
return `none` (for NaN) when no numeric prefix exists.  The `Infinity`
spellings are outside the modelled range. -/
def parseFloatDec (s : String) : Option DecValue :=
  let cs := s.toList.dropWhile (fun c => c == ' ' || c == '\t' || c == '\n' || c == '\r')
  let signed : Int × List Char :=
    match cs with
    | '+' :: r => (1, r)
    | '-' :: r => (-1, r)
    | _ => (1, cs)
  match parseMantissa signed.2 with
  | none => none
  | some (m, frac, rest) =>
    match parseExponentPart rest with
    | some e => some ⟨signed.1 * m, e - (frac : Int)⟩
    | none => some ⟨signed.1 * m, -(frac : Int)⟩

/-- The rational number the confidence string parses to, when it parses
at all. -/
def parseFloatQ (s : String) : Option ℚ :=
  (parseFloatDec s).map DecValue.toRat

/-- The structured classification payload (src `types`, `AnalysisResult`).
Fields are runtime strings: the closed diagnosis enum of the TypeScript
type is not enforced by `JSON.parse`. -/
structure AnalysisResult where
  diagnosis : String
  confidence : String
  explanation : String
  explainability : String
  uncertaintyStatement : String
  segmentationUncertaintyStatement : String
  anomalyReport : Option String := none
  processedId : Option String := none
  processedHash : Option String := none
  timestampBackend : Option String := none
deriving DecidableEq, Repr

/-- An apostrophe, as a one-character string. -/
def squote : String := String.singleton (Char.ofNat 39)

/-- The confidence threshold of the post-processing step
(src/unnamed/part_000 line 196). -/
def CONFIDENCE_THRESHOLD : Int := 70

/-- Mirror of the confidence-gated post-processing of `analyzeImage`
(src/unnamed/part_000 lines 194-201): when the confidence string parses
to a value strictly below the threshold, overwrite the diagnosis with the
sentinel and prepend the low-confidence disclosure (which quotes the
original diagnosis) to the uncertainty statement; otherwise leave the
result untouched. -/
def postProcessConfidence (r : AnalysisResult) : AnalysisResult :=
  match parseFloatDec r.confidence with
  | some confidenceValue =>
    if confidenceValue.ltInt CONFIDENCE_THRESHOLD then
      { r with
        diagnosis := "Requires Further Review",
        uncertaintyStatement :=
          "**Low Confidence (" ++ r.confidence ++ ")**: Initial finding " ++
            squote ++ r.diagnosis ++ squote ++ ". Requires review. " ++
            r.uncertaintyStatement }
    else r
  | none => r

/-- One content part of a remote image-generation response: the optional
inline image payload (`part.inlineData.data`). -/
structure GenPart where
  inlineData : Option String
deriving DecidableEq, Repr

/-- A remote `generateContent` response as far as the client reads it:
its text body and the content parts of its first candidate. -/
structure GenResponse where
  text : Option String
  parts : List GenPart
deriving DecidableEq, Repr

/-- Mirror of `extractImageFromResponse` (src/unnamed/part_000 lines
38-44): take the inline image payload of the first content part, failing
with an artifact-named extraction error when the part or a truthy
payload is missing. -/
def extractImageFromResponse (response : GenResponse) (errorContext : String) :
    Except String String :=
  match response.parts with
  | part :: _ =>
    match part.inlineData with
    | some data =>
      if data != "" then .ok data
      else .error (errorContext ++ " or received empty image data.")
    | none => .error (errorContext ++ " or received empty image data.")
  | [] => .error (errorContext ++ " or received empty image data.")

/-- The value `analyzeImage` resolves with (src/unnamed/part_000 lines
68, 212, 218): the classification plus whichever image payloads were
produced. -/
structure AnalyzeOutput where
  analysis : AnalysisResult
  segmentedImageBase64 : Option String := none
  heatmapImageBase64 : String
  segmentationUncertaintyMapBase64 : Option String := none
deriving DecidableEq, Repr

/-- Which of the four sub-calls of one `analyzeImage` invocation actually
dispatched a remote request (rather than resolving to absence or being
skipped by an early failure). -/
structure DispatchRecord where
  segDispatched : Bool
  segUncDispatched : Bool
  classDispatched : Bool
  heatDispatched : Bool
deriving DecidableEq, Repr

/-- Dispatch record of an invocation that failed before any fan-out. -/
def noDispatch : DispatchRecord := ⟨false, false, false, false⟩

/-- Which remote sub-calls one `analyzeImage` invocation dispatches
(src/unnamed/part_000 lines 91, 102, 158, 172): none when a precondition
fails before the fan-out; otherwise classification and heatmap always,
and the two segmentation calls exactly when the refinement feedback is
falsy (`refinementFeedback ? Promise.resolve(null) : retryWithBackoff(...)`). -/
def analyzeImageDispatch (apiKeyPresent : Bool)
    (refinementFeedback : Option String) (signalAtStart : Bool) :
    DispatchRecord :=
  if !apiKeyPresent then noDispatch
  else if signalAtStart then noDispatch
  else
    ⟨!(strTruthy refinementFeedback), !(strTruthy refinementFeedback), true, true⟩

/-- Mirror of `analyzeImage` (src/unnamed/part_000 lines 63-224), the
remote-analysis client pipeline, with its asynchronous environment made
explicit: `apiKeyPresent` models the credential precondition,
`signalAtStart` / `signalAfterJoin` the cancellation signal at the two
checks inside the function body, `segCall` / `segUncCall` / `classCall`
/ `heatCall` the settled outcome each retry-wrapped sub-call chain would
produce if dispatched (a chain is modelled in detail by
`retryWithBackoff` over `makeRequest`), `parseJson` the `JSON.parse`
builtin on the classification body, and `timestampNow` the current time.
When refinement feedback is truthy the two segmentation sub-calls are
replaced by promises already resolved to null.  The rejection of the
join barrier is taken in array order (the temporal completion order of
simultaneously failing promises is not modelled; the claims under
verification never exercise a multi-failure race).  Errors escaping the
function body are normalised by `parseApiError`; the two precondition
failures are raised before the `try` block and propagate unwrapped.
Which sub-calls actually dispatched is recorded separately by
`analyzeImageDispatch`. -/
def analyzeImage (apiKeyPresent : Bool) (refinementFeedback : Option String)
    (debugId : Option String) (timestampNow : String)
    (signalAtStart signalAfterJoin : Bool)
    (segCall segUncCall classCall heatCall : Except JsError GenResponse)
    (parseJson : String → Option AnalysisResult) :
    Except String AnalyzeOutput :=
  if !apiKeyPresent then
    .error "API Key Not Found. Please configure API_KEY."
  else if signalAtStart then
    .error "Request cancelled"
  else
    let refine := strTruthy refinementFeedback
    let segResp : Except JsError (Option GenResponse) :=
      if refine then .ok none else segCall.map some
    let segUncResp : Except JsError (Option GenResponse) :=
      if refine then .ok none else segUncCall.map some
    let joined : Except JsError
        (Option GenResponse × Option GenResponse × GenResponse × GenResponse) :=
      match segResp with
      | .error e => .error e
      | .ok a =>
        match segUncResp with
        | .error e => .error e
        | .ok b =>
          match classCall with
          | .error e => .error e
          | .ok c =>
            match heatCall with
            | .error e => .error e
            | .ok d => .ok (a, b, c, d)
    match joined with
    | .error e => .error (parseApiError e)
    | .ok (segR, segUncR, classR, heatR) =>
      if signalAfterJoin then
        .error (parseApiError requestCancelled)
      else
        let classificationText := (classR.text.map strTrim).getD ""
        if classificationText == "" then
          .error (parseApiError ⟨"Error", "Empty classification response."⟩)
        else
          match parseJson classificationText with
          | none =>
            .error (parseApiError ⟨"Error", "Invalid JSON response from AI."⟩)
          | some parsed =>
            let analysisResult := postProcessConfidence parsed
            let analysisResult :=
              if strTruthy debugId then
                { analysisResult with timestampBackend := some timestampNow }
              else analysisResult
            match extractImageFromResponse heatR "Heatmap generation failed" with
            | .error m => .error (parseApiError ⟨"Error", m⟩)
            | .ok heatmapImageBase64 =>
              match segR, segUncR with
              | some sR, some suR =>
                match extractImageFromResponse sR "Segmentation failed" with
                | .error m => .error (parseApiError ⟨"Error", m⟩)
                | .ok segmentedImageBase64 =>
                  match extractImageFromResponse suR "Uncertainty map failed" with
                  | .error m => .error (parseApiError ⟨"Error", m⟩)
                  | .ok segUncertaintyB64 =>
                    .ok ⟨analysisResult, some segmentedImageBase64,
                      heatmapImageBase64, some segUncertaintyB64⟩
              | _, _ => .ok ⟨analysisResult, none, heatmapImageBase64, none⟩

/-- A `File` value as far as the core inspects it. -/
structure FileData where
  name : String
  size : Nat
  lastModified : Nat
  mimeType : String
  content : List Nat
deriving DecidableEq, Repr

/-- Per-item processing status (src `types`, `ImageStatus`). -/
inductive ImageStatus
  | pending
  | loading
  | success
  | error
deriving DecidableEq, Repr

/-- Per-item mapping-integrity status (src `types`, `MappingStatus`). -/
inductive MappingStatus
  | unverified
  | verified
  | mismatch
deriving DecidableEq, Repr

/-- A trackable item (src `types`, `AnalyzableImage`). -/
structure AnalyzableImage where
  id : String
  file : FileData
  hash : Option String := none
  previewUrl : String := ""
  status : ImageStatus := .pending
  mappingStatus : MappingStatus := .unverified
  result : Option AnalysisResult := none
  error : Option String := none
  segmentedImageUrl : Option String := none
  heatmapImageUrl : Option String := none
  segmentationUncertaintyMapUrl : Option String := none
deriving DecidableEq, Repr

/-- The first guard of `verifyMapping` (src/utils/fileHelpers.ts line 39):
`resultId && resultId !== image.id`, under JavaScript truthiness of the
echoed id. -/
def idMismatch (imageId : String) : Option String → Bool
  | none => false
  | some rid => rid != "" && rid != imageId

/-- The second guard of `verifyMapping` (src/utils/fileHelpers.ts lines
45-52): when the echoed hash is truthy, recompute the local fingerprint
and compare, under JavaScript truthiness of the echoed hash. -/
def hashMismatch (hashFn : FileData → String) (file : FileData) :
    Option String → Bool
  | none => false
  | some backendHash => backendHash != "" && hashFn file != backendHash

/-- Mirror of `verifyMapping` (src/utils/fileHelpers.ts lines 33-56).
`hashFn` is the content fingerprinter (`generateFileHash`), an external
primitive the spec excludes from the core, passed as a pure function. -/
def verifyMapping (hashFn : FileData → String) (image : AnalyzableImage)
    (resultId : Option String) (backendHash : Option String) : Bool :=
  if idMismatch image.id resultId then false
  else if hashMismatch hashFn image.file backendHash then false
  else true

/-- The id-only acceptance check: what the first guard of `verifyMapping`
alone decides.  `verifyMapping` coincides with it whenever no backend
hash is supplied. -/
def verifyIdOnly (imageId : String) (resultId : Option String) : Bool :=
  !idMismatch imageId resultId

/-- The `data:image/jpeg;base64,` URL built from an inline payload
(src/App.tsx lines 92-94, 147). -/
def dataUrl (b64 : String) : String :=
  "data:image/jpeg;base64," ++ b64

/-- `b64 ? dataUrl b64 : old`: the conditional derived-image update of
the batch success reducer, under JavaScript truthiness of the payload. -/
def dataUrlOrKeep (b64 : Option String) (old : Option String) : Option String :=
  match b64 with
  | some s => if s != "" then some (dataUrl s) else old
  | none => old

/-- The optimistic update of `runAnalysisLoop` (src/App.tsx lines 59-61):
mark every candidate Loading, clear its error and reset its
mapping-status before any call begins. -/
def optimisticLoading (imgs : List AnalyzableImage)
    (candidates : List AnalyzableImage) : List AnalyzableImage :=
  imgs.map fun img =>
    if candidates.any (fun c => c.id == img.id) then
      { img with status := .loading, error := none, mappingStatus := .unverified }
    else img

/-- The success reducer of `runAnalysisLoop` (src/App.tsx lines 84-97):
set the target item to Success, record the verifier's verdict, attach
the result and produced images (keeping prior segmentation images when
no payload was produced) and clear the prior error. -/
def applySuccess (imgs : List AnalyzableImage) (targetId : String)
    (mStatus : MappingStatus) (result : AnalyzeOutput) : List AnalyzableImage :=
  imgs.map fun img =>
    if img.id != targetId then img
    else
      { img with
        status := .success,
        mappingStatus := mStatus,
        result := some result.analysis,
        segmentedImageUrl :=
          dataUrlOrKeep result.segmentedImageBase64 img.segmentedImageUrl,
        heatmapImageUrl := some (dataUrl result.heatmapImageBase64),
        segmentationUncertaintyMapUrl :=
          dataUrlOrKeep result.segmentationUncertaintyMapBase64
            img.segmentationUncertaintyMapUrl,
        error := none }

/-- The failure reducer of `runAnalysisLoop` (src/App.tsx lines 105-107):
set the target item to Error with the normalised message. -/
def markError (imgs : List AnalyzableImage) (targetId : String)
    (msg : String) : List AnalyzableImage :=
  imgs.map fun img =>
    if img.id == targetId then { img with status := .error, error := some msg }
    else img

/-- The sequential candidate loop of `runAnalysisLoop` (src/App.tsx lines
63-109).  `outcome image` is the settled result of the item's round trip
through `analyzeImage` (its error already normalised at the client
boundary); `abortedBefore i` is the state of the run's cancellation
signal when the loop head is reached for the i-th time.  A cancellation
observed at the loop head, or surfacing as the exact round-trip failure
message `Request cancelled`, stops the loop; any other failure marks the
item Error and continues; a success records the mapping verdict computed
by `verifyMapping` with no backend hash. -/
def loopItems (hashFn : FileData → String)
    (outcome : AnalyzableImage → Except String AnalyzeOutput)
    (abortedBefore : Nat → Bool) :
    Nat → List AnalyzableImage → List AnalyzableImage → List AnalyzableImage
  | _, imgs, [] => imgs
  | k, imgs, image :: rest =>
    if abortedBefore k then imgs
    else
      match outcome image with
      | .ok result =>
        let isVerified := verifyMapping hashFn image result.analysis.processedId none
        let mStatus : MappingStatus := if isVerified then .verified else .mismatch
        loopItems hashFn outcome abortedBefore (k + 1)
          (applySuccess imgs image.id mStatus result) rest
      | .error msg =>
        if msg == "Request cancelled" then imgs
        else loopItems hashFn outcome abortedBefore (k + 1)
          (markError imgs image.id msg) rest

/-- Mirror of `runAnalysisLoop` (src/App.tsx lines 48-112) on the item
collection: the optimistic update followed by the sequential per-item
loop.  The single-flight preemption of a previously active run and the
analyzing flag are outside the item collection. -/
def runAnalysisLoop (hashFn : FileData → String)
    (outcome : AnalyzableImage → Except String AnalyzeOutput)
    (abortedBefore : Nat → Bool) (imgs : List AnalyzableImage)
    (candidates : List AnalyzableImage) : List AnalyzableImage :=
  loopItems hashFn outcome abortedBefore 0
    (optimisticLoading imgs candidates) candidates

/-- The optimistic update of `handleRefineAnalysis` (src/App.tsx lines
132-134): the target item re-enters Loading with its error cleared; its
mapping-status is not touched. -/
def refineLoading (imgs : List AnalyzableImage) (id : String) :
    List AnalyzableImage :=
  imgs.map fun img =>
    if img.id == id then { img with status := .loading, error := none }
    else img

/-- The success reducer of `handleRefineAnalysis` (src/App.tsx lines
141-150): replace only the result and the heatmap image of the target
item and clear its error. -/
def refineSuccess (imgs : List AnalyzableImage) (id : String)
    (result : AnalyzeOutput) : List AnalyzableImage :=
  imgs.map fun img =>
    if img.id == id then
      { img with
        status := .success,
        result := some result.analysis,
        heatmapImageUrl := some (dataUrl result.heatmapImageBase64),
        error := none }
    else img

/-- The failure reducer of `handleRefineAnalysis` (src/App.tsx lines
152-154). -/
def refineFailure (imgs : List AnalyzableImage) (id : String)
    (msg : String) : List AnalyzableImage :=
  imgs.map fun img =>
    if img.id == id then { img with status := .error, error := some msg }
    else img

/-- Mirror of `handleRefineAnalysis` (src/App.tsx lines 128-156) on the
item collection.  `outcome item feedback` is the settled result of
`analyzeImage(item.file, feedback, id)` — dispatched with no
cancellation signal, so it cannot depend on the batch token. -/
def handleRefineAnalysis
    (outcome : AnalyzableImage → String → Except String AnalyzeOutput)
    (imgs : List AnalyzableImage) (id : String) (feedback : String) :
    List AnalyzableImage :=
  match imgs.find? (fun img => img.id == id) with
  | none => imgs
  | some imageToRefine =>
    let loadingImgs := refineLoading imgs id
    match outcome imageToRefine feedback with
    | .ok result => refineSuccess loadingImgs id result
    | .error msg => refineFailure loadingImgs id msg

/-- The application state the refinement handler can reach: the item
collection and the current batch run's cancellation token
(`abortControllerRef`, as an opaque token value). -/
structure AppState where
  images : List AnalyzableImage
  abortRef : Option Nat
deriving Repr

/-- `handleRefineAnalysis` lifted to the application state: the handler
body only ever calls `setImages`. -/
def handleRefineAnalysisApp
    (outcome : AnalyzableImage → String → Except String AnalyzeOutput)
    (s : AppState) (id : String) (feedback : String) : AppState :=
  { s with images := handleRefineAnalysis outcome s.images id feedback }

/-- A sample file used to instantiate universally quantified statements
at concrete inputs. -/
def sampleFile : FileData :=
  ⟨"scan.png", 4, 0, "image/png", [1, 2, 3, 4]⟩

/-- A sample freshly uploaded item. -/
def sampleImage : AnalyzableImage :=
  { id := "item-1", file := sampleFile }

/-- A sample classification payload with the given confidence string. -/
def sampleResult (conf : String) : AnalysisResult :=
  { diagnosis := "CNV", confidence := conf, explanation := "expl",
    explainability := "xai", uncertaintyStatement := "unc",
    segmentationUncertaintyStatement := "segunc", processedId := some "item-1" }

theorem verifyMapping_true_iff (hashFn : FileData → String)
    (image : AnalyzableImage) (resultId backendHash : Option String) :
    verifyMapping hashFn image resultId backendHash = true ↔
      (∀ rid, resultId = some rid → rid ≠ "" → rid = image.id) ∧
      (∀ bh, backendHash = some bh → bh ≠ "" → hashFn image.file = bh) := by
  rcases resultId with _ | rid <;> rcases backendHash with _ | bh <;>
    simp [verifyMapping, idMismatch, hashMismatch] <;> tauto

/-- C1 (amended): the verifier accepts exactly when every nonempty echoed
signal matches: a nonempty echoed id must equal the item id and a
nonempty echoed hash must equal the recomputed fingerprint of the item's
content; absent signals are accepted by default.  In particular an
echoed id equal to the item id verifies, a nonempty echoed id differing
from the item id fails, both signals absent verifies, and a nonempty
echoed hash differing from the recomputed fingerprint fails even when
the echoed id matched. -/
theorem verifyMapping_verdict (hashFn : FileData → String)
    (image : AnalyzableImage) (resultId backendHash : Option String) :
    (verifyMapping hashFn image resultId backendHash = true ↔
      (∀ rid, resultId = some rid → rid ≠ "" → rid = image.id) ∧
      (∀ bh, backendHash = some bh → bh ≠ "" → hashFn image.file = bh)) ∧
    (resultId = some image.id → backendHash = none →
      verifyMapping hashFn image resultId backendHash = true) ∧
    (resultId = none → backendHash = none →
      verifyMapping hashFn image resultId backendHash = true) ∧
    (∀ rid, resultId = some rid → rid ≠ "" → rid ≠ image.id →
      verifyMapping hashFn image resultId backendHash = false) ∧
    (∀ bh, backendHash = some bh → bh ≠ "" → hashFn image.file ≠ bh →
      verifyMapping hashFn image resultId backendHash = false) := by
  refine ⟨verifyMapping_true_iff hashFn image resultId backendHash, ?_, ?_, ?_, ?_⟩
  · rintro rfl rfl
    exact (verifyMapping_true_iff hashFn image _ _).mpr
      ⟨fun rid h _ => (Option.some.injEq _ _ ▸ h).symm, by simp⟩
  · rintro rfl rfl
    exact (verifyMapping_true_iff hashFn image _ _).mpr ⟨by simp, by simp⟩
  · rintro rid rfl hne hdiff
    rcases h : verifyMapping hashFn image (some rid) backendHash with _ | _
    · rfl
    · exact absurd ((((verifyMapping_true_iff hashFn image _ _).mp h).1) rid rfl hne) hdiff
  · rintro bh rfl hne hdiff
    rcases h : verifyMapping hashFn image resultId (some bh) with _ | _
    · rfl
    · exact absurd ((((verifyMapping_true_iff hashFn image _ _).mp h).2) bh rfl hne) hdiff

/-- C1 witness: concrete verdicts obtained through
`verifyMapping_verdict`: matching id with matching hash verifies, and a
nonempty mismatching id fails. -/
theorem verifyMapping_verdict_witness :
    verifyMapping (fun _ => "h") sampleImage (some "item-1") (some "h") = true ∧
    verifyMapping (fun _ => "h") sampleImage (some "other") none = false := by
  constructor
  · exact ((verifyMapping_verdict (fun _ => "h") sampleImage
      (some "item-1") (some "h")).1).mpr
      ⟨by simp [sampleImage], by simp⟩
  · exact (verifyMapping_verdict (fun _ => "h") sampleImage
      (some "other") none).2.2.2.1 "other" rfl (by decide) (by decide)

/-- C1 counterexample: the echoed id `""` is present (not undefined) and
differs from the item id, yet the verifier accepts: JavaScript
truthiness treats the empty echoed id as absent
(src/utils/fileHelpers.ts line 39, `resultId && resultId !== image.id`). -/
theorem verifyMapping_empty_id_counterexample :
    (some "" : Option String) ≠ none ∧ "" ≠ sampleImage.id ∧
      verifyMapping (fun _ => "h") sampleImage (some "") none = true :=
  ⟨by simp, by decide, rfl⟩

theorem DecValue.ltInt_iff (v : DecValue) (b : Int) :
    v.ltInt b = true ↔ v.toRat < (b : ℚ) := by
  unfold DecValue.ltInt DecValue.toRat
  split
  · next h =>
    rw [decide_eq_true_eq]
    obtain ⟨n, hn⟩ : ∃ n : ℕ, v.exp = (n : ℤ) :=
      ⟨v.exp.toNat, (Int.toNat_of_nonneg h).symm⟩
    rw [hn]
    simp only [Int.toNat_natCast, zpow_natCast]
    constructor
    · intro hlt
      exact_mod_cast hlt
    · intro hlt
      exact_mod_cast hlt
  · next h =>
    rw [decide_eq_true_eq]
    push_neg at h
    obtain ⟨m, hm⟩ : ∃ m : ℕ, v.exp = -(m : ℤ) := ⟨(-v.exp).toNat, by omega⟩
    rw [hm]
    simp only [neg_neg, Int.toNat_natCast]
    rw [zpow_neg, zpow_natCast, ← div_eq_mul_inv]
    have hpos : (0 : ℚ) < 10 ^ m := by positivity
    rw [div_lt_iff₀ hpos]
    constructor
    · intro hlt
      exact_mod_cast hlt
    · intro hlt
      exact_mod_cast hlt

/-- C2: when the confidence string parses strictly below 70 the diagnosis
is rewritten to the `Requires Further Review` sentinel and the new
uncertainty statement contains the original diagnosis; when it parses to
70 or above, or does not parse at all, the parsed result is left
entirely unchanged. -/
theorem postProcessConfidence_gate (r : AnalysisResult) :
    (∀ c : ℚ, parseFloatQ r.confidence = some c → c < 70 →
      (postProcessConfidence r).diagnosis = "Requires Further Review" ∧
      ∃ a b, (postProcessConfidence r).uncertaintyStatement =
        a ++ r.diagnosis ++ b) ∧
    (∀ c : ℚ, parseFloatQ r.confidence = some c → 70 ≤ c →
      postProcessConfidence r = r) ∧
    (parseFloatQ r.confidence = none → postProcessConfidence r = r) := by
  rcases hdec : parseFloatDec r.confidence with _ | v
  · refine ⟨?_, ?_, fun _ => ?_⟩
    · intro c hc
      simp [parseFloatQ, hdec] at hc
    · intro c hc
      simp [parseFloatQ, hdec] at hc
    · simp [postProcessConfidence, hdec]
  · have hq : parseFloatQ r.confidence = some v.toRat := by
      simp [parseFloatQ, hdec]
    refine ⟨?_, ?_, ?_⟩
    · intro c hc hlt
      have hcv : c = v.toRat := by
        rw [hq] at hc
        exact (Option.some.injEq _ _ ▸ hc).symm
      have hcast : ((CONFIDENCE_THRESHOLD : Int) : ℚ) = 70 := by
        norm_num [CONFIDENCE_THRESHOLD]
      have hb : v.ltInt CONFIDENCE_THRESHOLD = true := by
        rw [DecValue.ltInt_iff, hcast, ← hcv]
        exact hlt
      constructor
      · simp [postProcessConfidence, hdec, hb]
      · refine ⟨"**Low Confidence (" ++ r.confidence ++ ")**: Initial finding " ++
          squote, squote ++ ". Requires review. " ++ r.uncertaintyStatement, ?_⟩
        simp [postProcessConfidence, hdec, hb, String.append_assoc]
    · intro c hc hge
      have hcv : c = v.toRat := by
        rw [hq] at hc
        exact (Option.some.injEq _ _ ▸ hc).symm
      have hcast : ((CONFIDENCE_THRESHOLD : Int) : ℚ) = 70 := by
        norm_num [CONFIDENCE_THRESHOLD]
      have hb : v.ltInt CONFIDENCE_THRESHOLD = false := by
        rw [Bool.eq_false_iff]
        intro habs
        rw [DecValue.ltInt_iff, hcast, ← hcv] at habs
        exact absurd habs (not_lt.mpr hge)
      simp [postProcessConfidence, hdec, hb]
    · intro habs
      rw [hq] at habs
      exact absurd habs (by simp)

/-- C2 witness: concrete confidences through `postProcessConfidence_gate`:
`65%` rewrites the diagnosis and quotes the original inside the new
uncertainty statement; `70%` (the exclusive boundary), `85%` and the
unparsable `High` leave the result unchanged. -/
theorem postProcessConfidence_gate_witness :
    ((postProcessConfidence (sampleResult "65%")).diagnosis =
        "Requires Further Review" ∧
      ∃ a b, (postProcessConfidence (sampleResult "65%")).uncertaintyStatement =
        a ++ (sampleResult "65%").diagnosis ++ b) ∧
    postProcessConfidence (sampleResult "70%") = sampleResult "70%" ∧
    postProcessConfidence (sampleResult "85%") = sampleResult "85%" ∧
    postProcessConfidence (sampleResult "High") = sampleResult "High" := by
  have h65 : parseFloatQ (sampleResult "65%").confidence = some (65 : ℚ) := by
    have : parseFloatDec "65%" = some ⟨65, 0⟩ := by decide
    simp [parseFloatQ, sampleResult, this, DecValue.toRat]
  have h70 : parseFloatQ (sampleResult "70%").confidence = some (70 : ℚ) := by
    have : parseFloatDec "70%" = some ⟨70, 0⟩ := by decide
    simp [parseFloatQ, sampleResult, this, DecValue.toRat]
  have h85 : parseFloatQ (sampleResult "85%").confidence = some (85 : ℚ) := by
    have : parseFloatDec "85%" = some ⟨85, 0⟩ := by decide
    simp [parseFloatQ, sampleResult, this, DecValue.toRat]
  have hHigh : parseFloatQ (sampleResult "High").confidence = none := by
    have : parseFloatDec "High" = none := by decide
    simp [parseFloatQ, sampleResult, this]
  exact ⟨(postProcessConfidence_gate (sampleResult "65%")).1 65 h65 (by norm_num),
    (postProcessConfidence_gate (sampleResult "70%")).2.1 70 h70 (by norm_num),
    (postProcessConfidence_gate (sampleResult "85%")).2.1 85 h85 (by norm_num),
    (postProcessConfidence_gate (sampleResult "High")).2.2 hHigh⟩

theorem retryWithBackoff_ok (fn : Nat → Except JsError α) (r d k : Nat) (v : α)
    (h : fn k = .ok v) : retryWithBackoff fn r d k = ⟨.ok v, [], 1⟩ := by
  unfold retryWithBackoff
  rw [h]

theorem retryWithBackoff_zero_err (fn : Nat → Except JsError α) (d k : Nat)
    (e : JsError) (h : fn k = .error e) :
    retryWithBackoff fn 0 d k = ⟨.error e, [], 1⟩ := by
  unfold retryWithBackoff
  rw [h]

theorem retryWithBackoff_abort (fn : Nat → Except JsError α) (r d k : Nat)
    (e : JsError) (h : fn k = .error e) (hn : e.name = "AbortError") :
    retryWithBackoff fn (r + 1) d k = ⟨.error e, [], 1⟩ := by
  unfold retryWithBackoff
  rw [h]
  simp [hn]

theorem retryWithBackoff_retry (fn : Nat → Except JsError α) (r d k : Nat)
    (e : JsError) (h : fn k = .error e) (hn : e.name ≠ "AbortError")
    (hr : isRetryable e = true) :
    retryWithBackoff fn (r + 1) d k =
      ⟨(retryWithBackoff fn r (d * 2) (k + 1)).result,
        d :: (retryWithBackoff fn r (d * 2) (k + 1)).delays,
        1 + (retryWithBackoff fn r (d * 2) (k + 1)).execs⟩ := by
  have hb : (e.name == "AbortError") = false := by simp [hn]
  conv_lhs => unfold retryWithBackoff
  rw [h]
  simp [hb, hr]

theorem retryWithBackoff_noretry (fn : Nat → Except JsError α) (r d k : Nat)
    (e : JsError) (h : fn k = .error e) (hn : e.name ≠ "AbortError")
    (hr : isRetryable e = false) :
    retryWithBackoff fn (r + 1) d k = ⟨.error e, [], 1⟩ := by
  have hb : (e.name == "AbortError") = false := by simp [hn]
  unfold retryWithBackoff
  rw [h]
  simp [hb, hr]

/-- C3 (amended): a zero-argument operation whose failures all carry a
retryable marker message (quota, rate limit, server error, unavailable,
case-insensitively) and are not cancellation (`AbortError`) errors is
retried until the attempt budget is exhausted, surfacing the last error;
an operation whose first failure carries none of the markers propagates
that error on the first failure with no retry and no delay. -/
theorem retryWithBackoff_classification (fn : Nat → Except JsError α)
    (e : Nat → JsError) (retries delay k : Nat) :
    ((∀ j, fn j = .error (e j) ∧ isRetryable (e j) = true ∧
        (e j).name ≠ "AbortError") →
      (retryWithBackoff fn retries delay k).execs = retries + 1 ∧
      (retryWithBackoff fn retries delay k).result = .error (e (k + retries))) ∧
    (∀ e0, fn k = .error e0 → isRetryable e0 = false →
      retryWithBackoff fn retries delay k = ⟨.error e0, [], 1⟩) := by
  constructor
  · intro hall
    induction retries generalizing delay k with
    | zero =>
      rw [retryWithBackoff_zero_err fn delay k (e k) (hall k).1]
      exact ⟨rfl, by simp⟩
    | succ r ih =>
      rw [retryWithBackoff_retry fn r delay k (e k) (hall k).1 (hall k).2.2
        (hall k).2.1]
      have := ih (delay * 2) (k + 1)
      refine ⟨by simp only [this.1]; omega, ?_⟩
      have h2 := this.2
      simp only [h2]
      have : k + 1 + r = k + (r + 1) := by omega
      rw [this]
  · intro e0 h hr
    match retries with
    | 0 => exact retryWithBackoff_zero_err fn delay k e0 h
    | r + 1 =>
      by_cases hn : e0.name = "AbortError"
      · exact retryWithBackoff_abort fn r delay k e0 h hn
      · exact retryWithBackoff_noretry fn r delay k e0 h hn hr

/-- A persistently failing transient error, for concrete instantiation. -/
def quotaError : JsError := ⟨"Error", "quota exceeded"⟩

/-- A non-retryable failure, for concrete instantiation. -/
def badRequestError : JsError := ⟨"Error", "Invalid request body"⟩

/-- C3 witness: through `retryWithBackoff_classification`, a persistent
quota failure under the default budget of 3 retries executes the
operation 4 times, and a non-marker failure propagates after a single
execution with no delay. -/
theorem retryWithBackoff_classification_witness :
    (retryWithBackoff (fun _ : Nat => (.error quotaError : Except JsError Nat))
      3 1000 0).execs = 3 + 1 ∧
    retryWithBackoff (fun _ : Nat => (.error badRequestError : Except JsError Nat))
      3 1000 0 = ⟨.error badRequestError, [], 1⟩ :=
  ⟨((retryWithBackoff_classification (fun _ => .error quotaError)
      (fun _ => quotaError) 3 1000 0).1
      (fun _ => ⟨rfl, by decide, by decide⟩)).1,
    (retryWithBackoff_classification (fun _ => .error badRequestError)
      (fun _ => badRequestError) 3 1000 0).2 badRequestError rfl (by decide)⟩

/-- C3 counterexample: an error named `AbortError` whose message contains
the marker `quota` is classified retryable by the message check, yet
`retryWithBackoff` propagates it on the first failure — the budget of 3
retries is never touched — because the `AbortError` name check precedes
the marker classification (src/unnamed/part_000 line 51). -/
theorem retryWithBackoff_abort_named_counterexample :
    isRetryable ⟨"AbortError", "quota"⟩ = true ∧
    retryWithBackoff (fun _ : Nat => (.error ⟨"AbortError", "quota"⟩ :
      Except JsError Nat)) 3 1000 0 = ⟨.error ⟨"AbortError", "quota"⟩, [], 1⟩ :=
  ⟨by decide,
    retryWithBackoff_abort (fun _ => .error ⟨"AbortError", "quota"⟩) 2 1000 0
      ⟨"AbortError", "quota"⟩ rfl rfl⟩

/-- C4: in every retry chain the delay waited before retry attempt k
(k ≥ 2), read off as position k−2 of the delay trace, equals the initial
delay times 2^(k−2), and the operation is executed at most 1 + retries
times. -/
theorem retryWithBackoff_delays_and_budget (fn : Nat → Except JsError α)
    (retries delay k : Nat) :
    (∀ i (h : i < (retryWithBackoff fn retries delay k).delays.length),
      (retryWithBackoff fn retries delay k).delays.get ⟨i, h⟩ = delay * 2 ^ i) ∧
    (retryWithBackoff fn retries delay k).execs ≤ retries + 1 := by
  induction retries generalizing delay k with
  | zero =>
    rcases h : fn k with e | v
    · rw [retryWithBackoff_zero_err fn delay k e h]
      exact ⟨fun i hi => absurd hi (by simp), by simp⟩
    · rw [retryWithBackoff_ok fn 0 delay k v h]
      exact ⟨fun i hi => absurd hi (by simp), by simp⟩
  | succ r ih =>
    rcases h : fn k with e | v
    · by_cases hn : e.name = "AbortError"
      · rw [retryWithBackoff_abort fn r delay k e h hn]
        exact ⟨fun i hi => absurd hi (by simp), by simp⟩
      · rcases hr : isRetryable e with _ | _
        · rw [retryWithBackoff_noretry fn r delay k e h hn hr]
          exact ⟨fun i hi => absurd hi (by simp), by simp⟩
        · rw [retryWithBackoff_retry fn r delay k e h hn hr]
          constructor
          · intro i hi
            match i with
            | 0 => simp
            | j + 1 =>
              have hj : j < (retryWithBackoff fn r (delay * 2) (k + 1)).delays.length := by
                simpa using hi
              have := (ih (delay * 2) (k + 1)).1 j hj
              simp only [List.get_cons_succ]
              rw [this]
              ring
          · have := (ih (delay * 2) (k + 1)).2
            simp only []
            omega
    · rw [retryWithBackoff_ok fn (r + 1) delay k v h]
      exact ⟨fun i hi => absurd hi (by simp), by simp⟩

/-- C4 witness: through `retryWithBackoff_delays_and_budget`, a
persistent quota failure with the default initial delay waits 2000 ms
before its third attempt (position 1 of the delay trace) and runs the
operation at most 4 times. -/
theorem retryWithBackoff_delays_and_budget_witness :
    (retryWithBackoff (fun _ : Nat => (.error quotaError : Except JsError Nat))
      3 1000 0).delays.get ⟨1, by decide⟩ = 1000 * 2 ^ 1 ∧
    (retryWithBackoff (fun _ : Nat => (.error quotaError : Except JsError Nat))
      3 1000 0).execs ≤ 3 + 1 :=
  ⟨(retryWithBackoff_delays_and_budget (fun _ => .error quotaError) 3 1000 0).1
      1 (by decide),
    (retryWithBackoff_delays_and_budget (fun _ => .error quotaError) 3 1000 0).2⟩

/-- C6: when the cancellation signal is already aborted at the moment a
sub-call would dispatch — `abortedAt k` is the signal state at the k-th
(re-)dispatch of the retry-wrapped sub-call, so this covers retry
re-dispatches by instantiating `k` accordingly — the wrapper does not
invoke the remote capability, yields the cancellation error, and the
whole retry chain starting at that dispatch settles to the cancellation
error after that single execution, whatever the remote capability would
have returned. -/
theorem makeRequest_abort_guard (abortedAt : Nat → Bool)
    (remote : Nat → Except JsError α) (r d k : Nat)
    (h : abortedAt k = true) :
    (makeRequest (abortedAt k) (remote k)).snd = false ∧
    (makeRequest (abortedAt k) (remote k)).fst = .error requestCancelled ∧
    retryWithBackoff (fun j => (makeRequest (abortedAt j) (remote j)).fst)
      r d k = ⟨.error requestCancelled, [], 1⟩ := by
  have hk : (fun j => (makeRequest (abortedAt j) (remote j)).fst) k =
      .error requestCancelled := by
    simp [makeRequest, h]
  refine ⟨by simp [makeRequest, h], by simp [makeRequest, h], ?_⟩
  match r with
  | 0 => exact retryWithBackoff_zero_err _ d k requestCancelled hk
  | r + 1 =>
    exact retryWithBackoff_noretry _ r d k requestCancelled hk
      (by decide) (by decide)

/-- C6 witness: a signal aborted from the start, through
`makeRequest_abort_guard`: the remote capability is not invoked and the
chain fails with the cancellation error. -/
theorem makeRequest_abort_guard_witness :
    (makeRequest ((fun _ : Nat => true) 0) ((fun _ : Nat =>
      (.ok 7 : Except JsError Nat)) 0)).snd = false ∧
    (makeRequest ((fun _ : Nat => true) 0) ((fun _ : Nat =>
      (.ok 7 : Except JsError Nat)) 0)).fst = .error requestCancelled ∧
    retryWithBackoff (fun j => (makeRequest ((fun _ : Nat => true) j)
      ((fun _ : Nat => (.ok 7 : Except JsError Nat)) j)).fst) 3 1000 0 =
      ⟨.error requestCancelled, [], 1⟩ :=
  makeRequest_abort_guard (fun _ => true) (fun _ => .ok 7) 3 1000 0 rfl

/-- C5: at a loop head not already aborted, a round trip failing with the
cancellation message stops the loop leaving the collection exactly as it
was (in particular the item is not marked Error), while a round trip
failing with any other message continues with the next candidates over
the collection in which that item — wherever it occurs — is set to Error
carrying the normalised message. -/
theorem loopItems_failure_handling (hashFn : FileData → String)
    (outcome : AnalyzableImage → Except String AnalyzeOutput)
    (abortedBefore : Nat → Bool) (k : Nat) (imgs : List AnalyzableImage)
    (image : AnalyzableImage) (rest : List AnalyzableImage)
    (hk : abortedBefore k = false) :
    (outcome image = .error "Request cancelled" →
      loopItems hashFn outcome abortedBefore k imgs (image :: rest) = imgs) ∧
    (∀ msg, outcome image = .error msg → msg ≠ "Request cancelled" →
      loopItems hashFn outcome abortedBefore k imgs (image :: rest) =
        loopItems hashFn outcome abortedBefore (k + 1)
          (markError imgs image.id msg) rest ∧
      ∀ img ∈ imgs, img.id = image.id →
        { img with status := ImageStatus.error, error := some msg } ∈
          markError imgs image.id msg) := by
  constructor
  · intro h
    simp [loopItems, hk, h]
  · intro msg h hne
    have hb : (msg == "Request cancelled") = false := by simp [hne]
    refine ⟨by simp [loopItems, hk, h, hb], ?_⟩
    intro img hmem hid
    exact List.mem_map.mpr ⟨img, hmem, by simp [markError, hid]⟩

/-- C5 witness: through `loopItems_failure_handling`, a cancellation
failure leaves the singleton collection untouched, and the failure
message `boom` marks the item Error and hands the loop the remaining
(empty) candidates. -/
theorem loopItems_failure_handling_witness :
    loopItems (fun _ => "h") (fun _ => .error "Request cancelled")
      (fun _ => false) 0 [sampleImage] [sampleImage] = [sampleImage] ∧
    loopItems (fun _ => "h") (fun _ => .error "boom")
      (fun _ => false) 0 [sampleImage] [sampleImage] =
      loopItems (fun _ => "h") (fun _ => .error "boom") (fun _ => false) 1
        (markError [sampleImage] sampleImage.id "boom") [] :=
  ⟨(loopItems_failure_handling (fun _ => "h")
      (fun _ => .error "Request cancelled") (fun _ => false) 0 [sampleImage]
      sampleImage [] rfl).1 rfl,
    ((loopItems_failure_handling (fun _ => "h") (fun _ => .error "boom")
      (fun _ => false) 0 [sampleImage] sampleImage [] rfl).2 "boom" rfl
      (by decide)).1⟩

theorem verifyMapping_none_hash (hashFn : FileData → String)
    (image : AnalyzableImage) (resultId : Option String) :
    verifyMapping hashFn image resultId none = verifyIdOnly image.id resultId := by
  unfold verifyMapping verifyIdOnly
  cases h : idMismatch image.id resultId <;> simp [h, hashMismatch]

theorem loopItems_hashFn_irrelevant (hashFn hashFn2 : FileData → String)
    (outcome : AnalyzableImage → Except String AnalyzeOutput)
    (abortedBefore : Nat → Bool) :
    ∀ (cands : List AnalyzableImage) (k : Nat) (imgs : List AnalyzableImage),
      loopItems hashFn outcome abortedBefore k imgs cands =
        loopItems hashFn2 outcome abortedBefore k imgs cands := by
  intro cands
  induction cands with
  | nil => intro k imgs; rfl
  | cons image rest ih =>
    intro k imgs
    rcases hab : abortedBefore k with _ | _
    · rcases ho : outcome image with msg | result
      · by_cases hm : msg = "Request cancelled"
        · simp [loopItems, hab, ho, hm]
        · have hb : (msg == "Request cancelled") = false := by simp [hm]
          simp only [loopItems, hab, ho, hb, Bool.false_eq_true, if_false]
          exact ih (k + 1) (markError imgs image.id msg)
      · simp only [loopItems, hab, ho, Bool.false_eq_true, if_false,
          verifyMapping_none_hash]
        exact ih (k + 1) _
    · simp [loopItems, hab]

/-- C9: the batch loop hands the verifier no backend hash, so the whole
run is independent of the content fingerprinter — the hash-comparison
branch is never exercised — and with an absent hash the verifier's
verdict coincides with the pure id-only check, so each item's mapping
status is determined solely by the echoed processed id. -/
theorem runAnalysisLoop_id_only_verification :
    (∀ (hashFn hashFn2 : FileData → String)
      (outcome : AnalyzableImage → Except String AnalyzeOutput)
      (abortedBefore : Nat → Bool) (imgs cands : List AnalyzableImage),
      runAnalysisLoop hashFn outcome abortedBefore imgs cands =
        runAnalysisLoop hashFn2 outcome abortedBefore imgs cands) ∧
    (∀ (hashFn : FileData → String) (image : AnalyzableImage)
      (resultId : Option String),
      verifyMapping hashFn image resultId none = verifyIdOnly image.id resultId) :=
  ⟨fun hashFn hashFn2 outcome abortedBefore imgs cands =>
    loopItems_hashFn_irrelevant hashFn hashFn2 outcome abortedBefore cands 0
      (optimisticLoading imgs cands),
    verifyMapping_none_hash⟩

theorem map_mappingStatus_of_preserve (f : AnalyzableImage → AnalyzableImage)
    (hf : ∀ img, (f img).mappingStatus = img.mappingStatus)
    (l : List AnalyzableImage) :
    (l.map f).map AnalyzableImage.mappingStatus =
      l.map AnalyzableImage.mappingStatus := by
  induction l with
  | nil => rfl
  | cons a t ih => simp [hf a, ih]

/-- C10: refinement leaves the mapping-status of every position of the
item collection unchanged, both at the optimistic step that re-enters
the item into Loading (no reset to Unverified) and across the whole
handler on any outcome (no verification is re-run), so after a
successful refinement each item's mapping-status equals its
pre-refinement value. -/
theorem handleRefineAnalysis_preserves_mappingStatus
    (outcome : AnalyzableImage → String → Except String AnalyzeOutput)
    (imgs : List AnalyzableImage) (id feedback : String) :
    (refineLoading imgs id).map AnalyzableImage.mappingStatus =
      imgs.map AnalyzableImage.mappingStatus ∧
    (handleRefineAnalysis outcome imgs id feedback).map
        AnalyzableImage.mappingStatus =
      imgs.map AnalyzableImage.mappingStatus := by
  have hload : ∀ l : List AnalyzableImage,
      (refineLoading l id).map AnalyzableImage.mappingStatus =
        l.map AnalyzableImage.mappingStatus := by
    intro l
    refine map_mappingStatus_of_preserve _ ?_ l
    intro img
    by_cases h : (img.id == id) = true <;> simp [h]
  refine ⟨hload imgs, ?_⟩
  rcases hfind : imgs.find? (fun img => img.id == id) with _ | target
  · simp only [handleRefineAnalysis, hfind]
  · rcases hout : outcome target feedback with msg | result
    · simp only [handleRefineAnalysis, hfind, hout]
      exact (map_mappingStatus_of_preserve
        (fun img => if img.id == id then
          { img with status := ImageStatus.error, error := some msg }
        else img)
        (fun img => by by_cases h : (img.id == id) = true <;> simp [h])
        (refineLoading imgs id)).trans (hload imgs)
    · simp only [handleRefineAnalysis, hfind, hout]
      exact (map_mappingStatus_of_preserve
        (fun img => if img.id == id then
          { img with
            status := ImageStatus.success,
            result := some result.analysis,
            heatmapImageUrl := some (dataUrl result.heatmapImageBase64),
            error := none }
        else img)
        (fun img => by by_cases h : (img.id == id) = true <;> simp [h])
        (refineLoading imgs id)).trans (hload imgs)

/-- C8: a successful out-of-band refinement leaves the batch cancellation
token untouched and unread (the handler commutes with any token
replacement), keeps every other item exactly as it was, and replaces in
the target item only the status, the result, the heatmap image reference
and the (cleared) error — its segmentation and segmentation-uncertainty
image references, mapping status and all remaining fields are carried
over unchanged, as the explicit record update shows. -/
theorem handleRefineAnalysis_success_frame
    (outcome : AnalyzableImage → String → Except String AnalyzeOutput)
    (s : AppState) (id feedback : String) (target : AnalyzableImage)
    (resp : AnalyzeOutput)
    (hfind : s.images.find? (fun img => img.id == id) = some target)
    (hout : outcome target feedback = .ok resp) :
    (handleRefineAnalysisApp outcome s id feedback).abortRef = s.abortRef ∧
    (∀ t, handleRefineAnalysisApp outcome { s with abortRef := t } id feedback =
      { handleRefineAnalysisApp outcome s id feedback with abortRef := t }) ∧
    (∀ img ∈ s.images, img.id ≠ id →
      img ∈ (handleRefineAnalysisApp outcome s id feedback).images) ∧
    (∀ img ∈ s.images, img.id = id →
      { img with
        status := ImageStatus.success,
        result := some resp.analysis,
        heatmapImageUrl := some (dataUrl resp.heatmapImageBase64),
        error := none } ∈ (handleRefineAnalysisApp outcome s id feedback).images) := by
  have himg : (handleRefineAnalysisApp outcome s id feedback).images =
      refineSuccess (refineLoading s.images id) id resp := by
    simp [handleRefineAnalysisApp, handleRefineAnalysis, hfind, hout]
  refine ⟨rfl, fun t => rfl, ?_, ?_⟩
  · intro img hmem hne
    have hb : (img.id == id) = false := by simp [hne]
    rw [himg]
    exact List.mem_map.mpr ⟨img,
      List.mem_map.mpr ⟨img, hmem, by simp [refineLoading, hb]⟩,
      by simp [refineSuccess, hb]⟩
  · intro img hmem hid
    have hb : (img.id == id) = true := by simp [hid]
    rw [himg]
    exact List.mem_map.mpr ⟨{ img with status := .loading, error := none },
      List.mem_map.mpr ⟨img, hmem, by simp [refineLoading, hb]⟩,
      by simp [refineSuccess, hb]⟩

/-- A refinement round-trip result, for concrete instantiation. -/
def refinedOutput : AnalyzeOutput :=
  { analysis := sampleResult "90%", heatmapImageBase64 := "NEWHEAT" }

/-- A fully resolved Success item carrying all three derived images. -/
def successImage : AnalyzableImage :=
  { id := "item-1", file := sampleFile, status := .success,
    mappingStatus := .verified, result := some (sampleResult "80%"),
    segmentedImageUrl := some "segURL", heatmapImageUrl := some "heatURL",
    segmentationUncertaintyMapUrl := some "segUncURL" }

/-- C8 witness: through `handleRefineAnalysis_success_frame` on a
one-item state holding token 7: the token survives and the refined item
— with its segmentation, segmentation-uncertainty and mapping-status
fields carried over — is in the resulting collection. -/
theorem handleRefineAnalysis_success_frame_witness :
    (handleRefineAnalysisApp (fun _ _ => .ok refinedOutput)
      ⟨[successImage], some 7⟩ "item-1" "focus on the fluid").abortRef = some 7 ∧
    { successImage with
      status := ImageStatus.success,
      result := some refinedOutput.analysis,
      heatmapImageUrl := some (dataUrl refinedOutput.heatmapImageBase64),
      error := none } ∈
      (handleRefineAnalysisApp (fun _ _ => .ok refinedOutput)
        ⟨[successImage], some 7⟩ "item-1" "focus on the fluid").images :=
  ⟨(handleRefineAnalysis_success_frame (fun _ _ => .ok refinedOutput)
      ⟨[successImage], some 7⟩ "item-1" "focus on the fluid" successImage
      refinedOutput rfl rfl).1,
    (handleRefineAnalysis_success_frame (fun _ _ => .ok refinedOutput)
      ⟨[successImage], some 7⟩ "item-1" "focus on the fluid" successImage
      refinedOutput rfl rfl).2.2.2 successImage (by simp) rfl⟩

/-- C7 (amended): a call of `analyzeImage` that passes the precondition
checks with nonempty (truthy) refinement text dispatches neither
segmentation sub-call while still dispatching classification and
heatmap, its outcome is independent of whatever the segmentation calls
would have returned, and a successful return carries no segmentation and
no segmentation-uncertainty payload while its heatmap payload is the one
extracted from the heatmap response (the classification payload is the
`analysis` field the output always carries). -/
theorem analyzeImage_refinement_skips_segmentation
    (s1 : String) (debugId : Option String) (ts : String) (sJoin : Bool)
    (segCall segCall2 segUncCall segUncCall2 classCall heatCall :
      Except JsError GenResponse)
    (parseJson : String → Option AnalysisResult) (hs : s1 ≠ "") :
    analyzeImageDispatch true (some s1) false = ⟨false, false, true, true⟩ ∧
    analyzeImage true (some s1) debugId ts false sJoin segCall segUncCall
        classCall heatCall parseJson =
      analyzeImage true (some s1) debugId ts false sJoin segCall2 segUncCall2
        classCall heatCall parseJson ∧
    ∀ out, analyzeImage true (some s1) debugId ts false sJoin segCall segUncCall
        classCall heatCall parseJson = .ok out →
      out.segmentedImageBase64 = none ∧
      out.segmentationUncertaintyMapBase64 = none ∧
      ∃ heatR, heatCall = .ok heatR ∧
        extractImageFromResponse heatR "Heatmap generation failed" =
          .ok out.heatmapImageBase64 := by
  have htr : strTruthy (some s1) = true := by simp [strTruthy, hs]
  refine ⟨by simp [analyzeImageDispatch, htr], by simp [analyzeImage, htr], ?_⟩
  intro out h
  rcases hclass : classCall with eC | cR
  · simp [analyzeImage, htr, hclass] at h
  rcases hheat : heatCall with eH | hR
  · simp [analyzeImage, htr, hclass, hheat] at h
  rcases sJoin with _ | _
  · by_cases ht : (((cR.text.map strTrim).getD "") == "") = true
    · simp [analyzeImage, htr, hclass, hheat, ht] at h
    · rcases hp : parseJson ((cR.text.map strTrim).getD "") with _ | parsed
      · simp [analyzeImage, htr, hclass, hheat, ht, hp] at h
      · rcases hex : extractImageFromResponse hR "Heatmap generation failed"
          with m | b
        · simp [analyzeImage, htr, hclass, hheat, ht, hp, hex] at h
        · simp [analyzeImage, htr, hclass, hheat, ht, hp, hex] at h
          subst h
          exact ⟨rfl, rfl, hR, rfl, hex⟩
  · simp [analyzeImage, htr, hclass, hheat] at h

/-- A heatmap-style response carrying an inline payload. -/
def okHeatResponse : GenResponse := ⟨none, [⟨some "HEAT"⟩]⟩

/-- A classification response carrying a text body. -/
def okClassResponse : GenResponse := ⟨some "CLS", []⟩

/-- A segmentation outcome that a refinement run must never consult. -/
def segIgnored : Except JsError GenResponse :=
  .error ⟨"Error", "seg outcome must not matter"⟩

/-- C7 witness: through `analyzeImage_refinement_skips_segmentation` at
the refinement text `focus`: neither segmentation call dispatches, the
run ignores even an erroring segmentation outcome, and the successful
output carries no segmentation payloads. -/
theorem analyzeImage_refinement_skips_segmentation_witness :
    analyzeImageDispatch true (some "focus") false = ⟨false, false, true, true⟩ ∧
    analyzeImage true (some "focus") none "" false false segIgnored segIgnored
        (.ok okClassResponse) (.ok okHeatResponse)
        (fun _ => some (sampleResult "90%")) =
      analyzeImage true (some "focus") none "" false false (.ok okHeatResponse)
        (.ok okHeatResponse) (.ok okClassResponse) (.ok okHeatResponse)
        (fun _ => some (sampleResult "90%")) ∧
    (⟨sampleResult "90%", none, "HEAT", none⟩ :
      AnalyzeOutput).segmentedImageBase64 = none ∧
    (⟨sampleResult "90%", none, "HEAT", none⟩ :
      AnalyzeOutput).segmentationUncertaintyMapBase64 = none :=
  ⟨(analyzeImage_refinement_skips_segmentation "focus" none "" false segIgnored
      (.ok okHeatResponse) segIgnored (.ok okHeatResponse) (.ok okClassResponse)
      (.ok okHeatResponse) (fun _ => some (sampleResult "90%"))
      (by decide)).1,
    (analyzeImage_refinement_skips_segmentation "focus" none "" false segIgnored
      (.ok okHeatResponse) segIgnored (.ok okHeatResponse) (.ok okClassResponse)
      (.ok okHeatResponse) (fun _ => some (sampleResult "90%"))
      (by decide)).2.1,
    ((analyzeImage_refinement_skips_segmentation "focus" none "" false segIgnored
      (.ok okHeatResponse) segIgnored (.ok okHeatResponse) (.ok okClassResponse)
      (.ok okHeatResponse) (fun _ => some (sampleResult "90%"))
      (by decide)).2.2 ⟨sampleResult "90%", none, "HEAT", none⟩ rfl).1,
    ((analyzeImage_refinement_skips_segmentation "focus" none "" false segIgnored
      (.ok okHeatResponse) segIgnored (.ok okHeatResponse) (.ok okClassResponse)
      (.ok okHeatResponse) (fun _ => some (sampleResult "90%"))
      (by decide)).2.2 ⟨sampleResult "90%", none, "HEAT", none⟩ rfl).2.1⟩

/-- C7 counterexample: the empty refinement text is supplied (the
argument is present, not undefined), yet both segmentation sub-calls
dispatch and the returned value carries both segmentation payloads:
JavaScript truthiness treats the empty feedback string as absent
(src/unnamed/part_000 lines 91, 102, `refinementFeedback ?
Promise.resolve(null) : retryWithBackoff(...)`). -/
theorem analyzeImage_empty_refinement_counterexample :
    (some "" : Option String) ≠ none ∧
    analyzeImageDispatch true (some "") false = ⟨true, true, true, true⟩ ∧
    analyzeImage true (some "") none "" false false (.ok okHeatResponse)
        (.ok okHeatResponse) (.ok okClassResponse) (.ok okHeatResponse)
        (fun _ => some (sampleResult "90%")) =
      .ok ⟨sampleResult "90%", some "HEAT", "HEAT", some "HEAT"⟩ :=
  ⟨by simp, rfl, rfl⟩

end RetinaOCT
